import Mathlib

/-!
# Bitcoin side of the atomic swap and the Bitcoin client

Embedding of `wallet/bitcoin/bitcoin_side.h` (class `BitcoinSide`) and of
`wallet/bitcoin/client.cpp` (class `bitcoin::Client`).

`bitcoin_side.h` only declares the members of `BitcoinSide`; their bodies are
not part of the sources at hand, so each of them is modelled from the written
specification and marked as such.  `client.cpp` is embedded from its code.

Amounts (`Amount`) and heights (`uint64_t`) are natural numbers; the bound
`2 ^ 64` is stated where a value has to be a 64-bit one.
-/

namespace beam
namespace wallet

/-- One more than the largest value of `Amount` and of `uint64_t`. -/
def UINT64_RANGE : Nat := 2 ^ 64

/-! ## Fee and amount policy -/

/-- Modelled from the spec: the two constants of the fee and amount policy (§4.4),
`DUST_THRESHOLD` and the transaction-size estimate `κ`.  Their values are chosen by
the implementation and are declared in no file at hand, so they are parameters. -/
structure AmountPolicy where
  DUST_THRESHOLD : Nat
  kappa : Nat
  deriving Repr, DecidableEq

/-- Modelled from the spec: §4.4, `minAmount(feeRate) = max(DUST_THRESHOLD, κ·feeRate)`.
The function is named by the spec only; the product is the exact one of the formula. -/
def minAmount (p : AmountPolicy) (feeRate : Nat) : Nat :=
  max p.DUST_THRESHOLD (p.kappa * feeRate)

/-- Modelled from the spec: the body of `BitcoinSide::CheckAmount(Amount amount, Amount feeRate)`,
declared `static bool` in `bitcoin_side.h`.  §4.4: "returns true iff
`amount ≥ minAmount(feeRate)`". -/
def BitcoinSide.CheckAmount (p : AmountPolicy) (amount feeRate : Nat) : Bool :=
  decide (minAmount p feeRate ≤ amount)

/-- Modelled from the spec: the swap session of §3, the typed parameter store that the
controller reads and writes through `m_tx` (`BaseTransaction& m_tx`; the class is declared
in no file at hand).  Keys, hashes and the secret are byte strings. -/
structure SwapSession where
  amount : Nat
  secretHash : List Nat
  publicKeyA : List Nat
  publicKeyB : List Nat
  peerResponseTime : Nat
  lifetime : Nat
  minTxAcceptanceHeight : Nat
  externalLockTime : Nat
  deriving Repr, DecidableEq

/-- Data members of `class BitcoinSide` (`bitcoin_side.h`, private section): the host
transaction `m_tx`, the role flag `m_isBtcOwner`, the cached block count
`uint64_t m_blockCount = 0`, the cached confirmation count and the two cached raw
transactions.  The bridge and the settings provider are collaborators; what is read from
them is passed to the operations below. -/
structure BitcoinSide where
  m_tx : SwapSession
  m_isBtcOwner : Bool
  m_blockCount : Nat
  m_SwapLockTxConfirmations : Nat
  m_SwapLockRawTx : Option String
  m_SwapWithdrawRawTx : Option String
  deriving Repr, DecidableEq

/-- Modelled from the spec: what the lock-time negotiator (§4.5) reads besides the session:
the policy `LockTimeInBlocks` (`GetLockTimeInBlocks()`), the estimate
`LockTxEstimatedTimeInNativeBlocks` (`GetLockTxEstimatedTimeInBeamBlocks()`), the translation
of native-chain blocks to Bitcoin blocks by the fixed block-time ratio, and the tolerance of
`ValidateLockTime`.  The getters are declared in `bitcoin_side.h` without bodies and the
spec names no value, so all four are parameters. -/
structure LockTimeSettings where
  LockTimeInBlocks : Nat
  LockTxEstimatedTimeInBeamBlocks : Nat
  beamToBitcoinBlocks : Nat → Nat
  tolerance : Nat

/-- Modelled from the spec: `BitcoinSide::GetBlockCount()`, declared in `bitcoin_side.h`;
the current Bitcoin height known to the controller is the cached `m_blockCount` (§3,
"cached block count"). -/
def BitcoinSide.GetBlockCount (s : BitcoinSide) : Nat :=
  s.m_blockCount

/-- Modelled from the spec: §4.5, `Δ_native = peerResponseTime +
LockTxEstimatedTimeInNativeBlocks`. -/
def BitcoinSide.nativeTimeBudget (cfg : LockTimeSettings) (s : BitcoinSide) : Nat :=
  s.m_tx.peerResponseTime + cfg.LockTxEstimatedTimeInBeamBlocks

/-- Modelled from the spec: §4.5, `Δ_btc`, the native budget translated to Bitcoin blocks. -/
def BitcoinSide.bitcoinTimeBudget (cfg : LockTimeSettings) (s : BitcoinSide) : Nat :=
  cfg.beamToBitcoinBlocks (BitcoinSide.nativeTimeBudget cfg s)

/-- Modelled from the spec: the body of `BitcoinSide::InitLockTime()` (declared
`bool InitLockTime() override`).  §4.5: publish
`externalLockTime = H_btc_now + LockTimeInBlocks + Δ_btc`; the spec names no failing case. -/
def BitcoinSide.InitLockTime (cfg : LockTimeSettings) (s : BitcoinSide) : Bool × BitcoinSide :=
  let height := s.GetBlockCount
  let lockTime := height + cfg.LockTimeInBlocks + BitcoinSide.bitcoinTimeBudget cfg s
  (true, { s with m_tx := { s.m_tx with externalLockTime := lockTime } })

/-- Modelled from the spec: the body of `BitcoinSide::IsLockTimeExpired()`.  §4.5: "current
Bitcoin height ≥ `externalLockTime`". -/
def BitcoinSide.IsLockTimeExpired (s : BitcoinSide) : Bool :=
  decide (s.m_tx.externalLockTime ≤ s.GetBlockCount)

/-! ## Script builder -/

/-- Modelled from the spec: the operations of the redeem script of §4.3
(`libbitcoin::chain::script` is declared in no file at hand): the ten opcodes the script
uses, the push of a byte string and the push of a number. -/
inductive ScriptOp where
  | OP_IF
  | OP_SHA256
  | OP_EQUALVERIFY
  | OP_DUP
  | OP_HASH160
  | OP_ELSE
  | OP_CHECKLOCKTIMEVERIFY
  | OP_DROP
  | OP_ENDIF
  | OP_CHECKSIG
  | pushData (bytes : List Nat)
  | pushNumber (n : Nat)
  deriving Repr, DecidableEq

/-- Modelled from the spec: the body of `BitcoinSide::CreateAtomicSwapContract()`, which reads
its inputs from the session.  §4.3 gives the script; `hash160` is the library hash
(RIPEMD160 of SHA256) applied to a public key. -/
def BitcoinSide.CreateAtomicSwapContract (hash160 : List Nat → List Nat) (s : BitcoinSide) :
    List ScriptOp :=
  [ ScriptOp.OP_IF,
      ScriptOp.OP_SHA256, ScriptOp.pushData s.m_tx.secretHash, ScriptOp.OP_EQUALVERIFY,
      ScriptOp.OP_DUP, ScriptOp.OP_HASH160, ScriptOp.pushData (hash160 s.m_tx.publicKeyB),
    ScriptOp.OP_ELSE,
      ScriptOp.pushNumber s.m_tx.externalLockTime, ScriptOp.OP_CHECKLOCKTIMEVERIFY,
      ScriptOp.OP_DROP,
      ScriptOp.OP_DUP, ScriptOp.OP_HASH160, ScriptOp.pushData (hash160 s.m_tx.publicKeyA),
    ScriptOp.OP_ENDIF,
    ScriptOp.OP_EQUALVERIFY,
    ScriptOp.OP_CHECKSIG ]

/-- Bytes of a script under an encoding of the single operations (the Bitcoin-standard one
of §9 is one such encoding): the encodings in script order. -/
def scriptBytes (encode : ScriptOp → List Nat) (script : List ScriptOp) : List Nat :=
  (script.map encode).foldr (fun bytes acc => bytes ++ acc) []

/-! ## Declared types of the monetary values -/

/-- C++ types that the declarations of `bitcoin_side.h` and the callback of
`Client::GetBalance` give to monetary values. -/
inductive CppType where
  | Amount
  | uint64_t
  | double
  deriving Repr, DecidableEq

/-- Places of the Bitcoin-side interfaces where a monetary value passes: the two parameters of
`CheckAmount`, the results of the two `GetFeeRate` overloads, the `amount` parameter of
`OnGetSwapLockTxConfirmations`, and the three balances of the callback that
`Client::GetBalance` hands to `getDetailedBalance`. -/
inductive MonetarySlot where
  | CheckAmount_amount
  | CheckAmount_feeRate
  | GetFeeRate_result
  | GetFeeRate_subTx_result
  | OnGetSwapLockTxConfirmations_amount
  | getDetailedBalance_confirmed
  | getDetailedBalance_unconfirmed
  | getDetailedBalance_immature
  deriving Repr, DecidableEq

/-- Declared type of each place: `static bool CheckAmount(Amount amount, Amount feeRate)`,
`Amount GetFeeRate() const`, `Amount GetFeeRate(SubTxID subTxID) const`,
`void OnGetSwapLockTxConfirmations(const IBitcoinBridge::Error& error, const std::string&
hexScript, double amount, uint16_t confirmations)` in `bitcoin_side.h`, and
`[this] (const IBridge::Error& error, double confirmed, double unconfirmed, double immature)`
in `client.cpp`. -/
def MonetarySlot.declaredType : MonetarySlot → CppType
  | .CheckAmount_amount => .Amount
  | .CheckAmount_feeRate => .Amount
  | .GetFeeRate_result => .Amount
  | .GetFeeRate_subTx_result => .Amount
  | .OnGetSwapLockTxConfirmations_amount => .double
  | .getDetailedBalance_confirmed => .double
  | .getDetailedBalance_unconfirmed => .double
  | .getDetailedBalance_immature => .double

/-- Modelled from the spec: whether a type is a 64-bit unsigned integer.  The alias `Amount` is
declared in no file at hand; §9: "all monetary amounts are 64-bit unsigned satoshi".
`double` is a floating-point type. -/
def CppType.isUInt64 : CppType → Bool
  | .Amount => true
  | .uint64_t => true
  | .double => false

end wallet

/-! ## The Bitcoin client (`wallet/bitcoin/client.cpp`) -/

namespace bitcoin

/-- Values of `Client::Status`.  `client.cpp` names `Uninitialized`, `Connected` and `Failed`;
the enumeration is declared in `client.h`, so any further enumerator is kept as `Other`. -/
inductive Status where
  | Uninitialized
  | Connected
  | Failed
  | Other (tag : Nat)
  deriving Repr, DecidableEq

/-- Modelled from the spec: the error kinds of the node bridge (§4.1); `client.cpp` names
`IBridge::None` only, the enumeration is declared in no file at hand. -/
inductive ErrorType where
  | None
  | IOError
  | InvalidCredentials
  | InvalidGenesisBlock
  | EmptyResult
  | InsufficientFunds
  | InvalidResultFormat
  | Other (tag : Nat)
  deriving Repr, DecidableEq

/-- The bridge error `IBridge::Error`; `client.cpp` reads its member `m_type`. -/
structure Error where
  m_type : ErrorType
  m_message : String
  deriving Repr, DecidableEq

/-- The three members of `Balance` that `client.cpp` assigns.  `D` stands for `double`, the
type of the values the callback receives; the values are only copied. -/
structure Balance (D : Type) where
  m_available : D
  m_unconfirmed : D
  m_immature : D
  deriving Repr, DecidableEq

/-- The four operations of the settings provider that `client.cpp` calls
(`m_settingsProvider->...`), over a provider state `P`, settings `S` and Bitcoin-core
settings `C`.  The class `SettingsProvider` is declared in no file at hand, so its
operations are parameters. -/
structure SettingsProvider (P S C : Type) where
  GetBitcoinCoreSettings : P → C
  GetSettings : P → S
  SetSettings : P → S → P
  ResetSettings : P → P

/-- Operation of the settings provider that an access calls. -/
inductive ProviderCall where
  | GetBitcoinCoreSettings
  | GetSettings
  | SetSettings
  | ResetSettings
  deriving Repr, DecidableEq

/-- What an operation of the client does that is visible outside its own fields, in program
order: `lock` is the construction of `Lock lock(m_mutex)`, `unlock` its destruction at the end
of the enclosing scope, `provider` a call on `m_settingsProvider`, `getDetailedBalance` the
request sent to the bridge, `OnStatus` and `OnBalance` the two notifications. -/
inductive Event (D : Type) where
  | lock
  | unlock
  | provider (call : ProviderCall)
  | getDetailedBalance
  | OnStatus (status : Status)
  | OnBalance (balance : Balance D)
  deriving Repr, DecidableEq

/-- Fields of `Client` that `client.cpp` reads or writes: `m_status`, whether `m_bridge` is
set, the state of the settings provider, and the events so far. -/
structure Client (P D : Type) where
  m_status : Status
  m_bridge : Bool
  m_settingsProvider : P
  trace : List (Event D)

/-- Record one event after those already recorded. -/
def Client.emit {P D : Type} (c : Client P D) (e : Event D) : Client P D :=
  { c with trace := c.trace ++ [e] }

/-- The constructor `Client::Client`: `m_status(Status::Uninitialized)`, no bridge yet, and a settings
provider made from the wallet database (`provider` is its state). -/
def Client.ctor {P D : Type} (provider : P) : Client P D :=
  { m_status := Status.Uninitialized, m_bridge := false, m_settingsProvider := provider,
    trace := [] }

/-- `Client::GetBitcoinCoreSettings`: `Lock lock(m_mutex); return
m_settingsProvider->GetBitcoinCoreSettings();`, the lock ending after the returned value is
computed. -/
def Client.GetBitcoinCoreSettings {P S C D : Type} (sp : SettingsProvider P S C)
    (c : Client P D) : C × Client P D :=
  let c1 := c.emit Event.lock
  let result := sp.GetBitcoinCoreSettings c1.m_settingsProvider
  let c2 := c1.emit (Event.provider ProviderCall.GetBitcoinCoreSettings)
  (result, c2.emit Event.unlock)

/-- `Client::GetSettings`: `Lock lock(m_mutex); return m_settingsProvider->GetSettings();`. -/
def Client.GetSettings {P S C D : Type} (sp : SettingsProvider P S C)
    (c : Client P D) : S × Client P D :=
  let c1 := c.emit Event.lock
  let result := sp.GetSettings c1.m_settingsProvider
  let c2 := c1.emit (Event.provider ProviderCall.GetSettings)
  (result, c2.emit Event.unlock)

/-- `Client::SetSettings`: `Lock lock(m_mutex); m_settingsProvider->SetSettings(settings);`. -/
def Client.SetSettings {P S C D : Type} (sp : SettingsProvider P S C)
    (c : Client P D) (settings : S) : Client P D :=
  let c1 := c.emit Event.lock
  let c2 := { c1 with m_settingsProvider := sp.SetSettings c1.m_settingsProvider settings }
  let c3 := c2.emit (Event.provider ProviderCall.SetSettings)
  c3.emit Event.unlock

/-- The virtual notification `OnStatus(status)`. -/
def Client.OnStatus {P D : Type} (c : Client P D) (status : Status) : Client P D :=
  c.emit (Event.OnStatus status)

/-- The virtual notification `OnBalance(balance)`. -/
def Client.OnBalance {P D : Type} (c : Client P D) (balance : Balance D) : Client P D :=
  c.emit (Event.OnBalance balance)

/-- `Client::GetStatus`: `OnStatus(m_status);`. -/
def Client.GetStatus {P D : Type} (c : Client P D) : Client P D :=
  c.OnStatus c.m_status

/-- `Client::SetStatus`: `m_status = status; OnStatus(m_status);`. -/
def Client.SetStatus {P D : Type} (c : Client P D) (status : Status) : Client P D :=
  let c1 := { c with m_status := status }
  c1.OnStatus c1.m_status

/-- `Client::GetBalance` up to the request: the bridge is made when `m_bridge` is not set,
then `getDetailedBalance` is called with the callback `Client.onDetailedBalance`. -/
def Client.GetBalance {P D : Type} (c : Client P D) : Client P D :=
  let c1 := if !c.m_bridge then { c with m_bridge := true } else c
  c1.emit Event.getDetailedBalance

/-- The callback that `Client::GetBalance` passes to `getDetailedBalance`:
`SetStatus((error.m_type != IBridge::None) ? Status::Failed : Status::Connected);` then a
`Balance` filled from the three values and `OnBalance(balance);`. -/
def Client.onDetailedBalance {P D : Type} (c : Client P D) (error : Error)
    (confirmed unconfirmed immature : D) : Client P D :=
  let c1 := c.SetStatus (if error.m_type != ErrorType.None then Status.Failed else Status.Connected)
  let balance : Balance D :=
    { m_available := confirmed, m_unconfirmed := unconfirmed, m_immature := immature }
  c1.OnBalance balance

/-- `Client::ResetSettings`: the inner block `{ Lock lock(m_mutex);
m_settingsProvider->ResetSettings(); }`, then `SetStatus(Status::Uninitialized);`. -/
def Client.ResetSettings {P S C D : Type} (sp : SettingsProvider P S C)
    (c : Client P D) : Client P D :=
  let c1 := c.emit Event.lock
  let c2 := { c1 with m_settingsProvider := sp.ResetSettings c1.m_settingsProvider }
  let c3 := c2.emit (Event.provider ProviderCall.ResetSettings)
  let c4 := c3.emit Event.unlock
  c4.SetStatus Status.Uninitialized

/-- A call of the client from outside, or a reply of the bridge to `GetBalance`. -/
inductive Call (S D : Type) where
  | GetBitcoinCoreSettings
  | GetSettings
  | SetSettings (settings : S)
  | GetStatus
  | GetBalance
  | detailedBalanceReply (error : Error) (confirmed unconfirmed immature : D)
  | ResetSettings

/-- The client after one call. -/
def Client.step {P S C D : Type} (sp : SettingsProvider P S C) (c : Client P D) :
    Call S D → Client P D
  | Call.GetBitcoinCoreSettings => (c.GetBitcoinCoreSettings sp).2
  | Call.GetSettings => (c.GetSettings sp).2
  | Call.SetSettings settings => c.SetSettings sp settings
  | Call.GetStatus => c.GetStatus
  | Call.GetBalance => c.GetBalance
  | Call.detailedBalanceReply error confirmed unconfirmed immature =>
      c.onDetailedBalance error confirmed unconfirmed immature
  | Call.ResetSettings => c.ResetSettings sp

/-- The client after a sequence of calls, one after the other (the single reactor thread). -/
def Client.run {P S C D : Type} (sp : SettingsProvider P S C) (c : Client P D)
    (calls : List (Call S D)) : Client P D :=
  calls.foldl (Client.step sp) c

/-- Lock discipline of a sequence of events, read from a state in which the mutex is held or
not (`held`): a `lock` finds the mutex free, an `unlock` finds it held, every call on the
settings provider happens with the mutex held, every `OnStatus` with the mutex free, and at
the end the mutex is free. -/
def lockDiscipline {D : Type} : Bool → List (Event D) → Bool
  | held, [] => !held
  | held, Event.lock :: rest => !held && lockDiscipline true rest
  | held, Event.unlock :: rest => held && lockDiscipline false rest
  | held, Event.provider _ :: rest => held && lockDiscipline held rest
  | held, Event.OnStatus _ :: rest => !held && lockDiscipline held rest
  | held, Event.getDetailedBalance :: rest => lockDiscipline held rest
  | held, Event.OnBalance _ :: rest => lockDiscipline held rest

/-- The status of an `OnStatus` event, nothing for any other event. -/
def Event.status? {D : Type} : Event D → Option Status
  | Event.OnStatus status => some status
  | _ => none

/-- Argument of the most recent `OnStatus` notification of a trace, if there is one. -/
def lastOnStatus {D : Type} (trace : List (Event D)) : Option Status :=
  trace.reverse.findSome? Event.status?

/-- The balances of the `OnBalance` notifications of a trace, in order. -/
def balancesOf {D : Type} : List (Event D) → List (Balance D)
  | [] => []
  | Event.OnBalance balance :: rest => balance :: balancesOf rest
  | _ :: rest => balancesOf rest

/-- The stored status is the argument of the last notification, or `Uninitialized` when
nothing has been notified yet. -/
def Client.statusNotified {P D : Type} (c : Client P D) : Prop :=
  (lastOnStatus c.trace).getD Status.Uninitialized = c.m_status

end bitcoin

/-! ## Address generation (`wallet/common_utils.cpp`) -/

namespace wallet

/-- The members of `WalletAddress` that `common_utils.cpp` names, `m_walletID` and `m_label`,
and the remaining members as one value `others` (among them what `setExpiration` writes).
The class is declared in no file at hand; `W` and `R` stand for the types of the wallet
identifier and of the remaining members. -/
structure WalletAddress (W R : Type) where
  m_walletID : W
  m_label : String
  others : R
  deriving Repr, DecidableEq

/-- The three operations `GenerateNewAddress` calls and `common_utils.cpp` does not define,
over a wallet database `DB`, a key keeper `K` and expiration statuses `E`:
`storage::createAddress(*walletDB, keyKeeper)`, which returns an address and may change the
database it is given by reference; the member `address.setExpiration(expirationStatus)`;
and `walletDB->saveAddress(address)`. -/
structure AddressOperations (DB K E W R : Type) where
  createAddress : DB → K → WalletAddress W R × DB
  setExpiration : WalletAddress W R → E → WalletAddress W R
  saveAddress : DB → WalletAddress W R → DB

/-- What `GenerateNewAddress` does outside its return value, in program order: a call of
`walletDB->saveAddress` with its argument, the log line `kAddrNewGenerated` with the wallet
identifier, the log line `kAddrNewGeneratedLabel` with the label. -/
inductive AddressEvent (W R : Type) where
  | saveAddress (address : WalletAddress W R)
  | logNewGenerated (walletID : W)
  | logNewGeneratedLabel (label : String)
  deriving Repr, DecidableEq

/-- Result of `GenerateNewAddress`: the returned address, the wallet database afterwards and
the events of the call. -/
structure GeneratedAddress (DB W R : Type) where
  address : WalletAddress W R
  walletDB : DB
  events : List (AddressEvent W R)

/-- `GenerateNewAddress(walletDB, label, keyKeeper, expirationStatus, saveRequired)`:
`WalletAddress address = storage::createAddress(*walletDB, keyKeeper);`
`address.setExpiration(expirationStatus); address.m_label = label;`
`if (saveRequired) { walletDB->saveAddress(address); }`, the log line with the wallet
identifier, the log line with the label `if (!label.empty())`, and `return address;`. -/
def GenerateNewAddress {DB K E W R : Type} (ops : AddressOperations DB K E W R)
    (walletDB : DB) (label : String) (keyKeeper : K) (expirationStatus : E)
    (saveRequired : Bool) : GeneratedAddress DB W R :=
  let created := ops.createAddress walletDB keyKeeper
  let address := ops.setExpiration created.1 expirationStatus
  let address := { address with m_label := label }
  let saved : DB × List (AddressEvent W R) :=
    if saveRequired then (ops.saveAddress created.2 address, [AddressEvent.saveAddress address])
    else (created.2, [])
  let events := saved.2 ++ [AddressEvent.logNewGenerated address.m_walletID]
  let events := if !label.isEmpty then events ++ [AddressEvent.logNewGeneratedLabel label]
    else events
  { address := address, walletDB := saved.1, events := events }

/-- The arguments of the `saveAddress` calls among the events, in order. -/
def savedAddresses {W R : Type} : List (AddressEvent W R) → List (WalletAddress W R)
  | [] => []
  | AddressEvent.saveAddress address :: rest => address :: savedAddresses rest
  | _ :: rest => savedAddresses rest

end wallet
end beam

/-! # Theorems -/

namespace beam
namespace wallet

/-! ### Fee and amount policy -/

theorem minAmount_pos_of_dust (p : AmountPolicy) (feeRate : Nat)
    (hd : 0 < p.DUST_THRESHOLD) : 0 < minAmount p feeRate := by
  unfold minAmount
  exact lt_of_lt_of_le hd (le_max_left _ _)

/-- C1: for 64-bit `amount` and `feeRate`, `CheckAmount` is true exactly when
`amount ≥ max(DUST_THRESHOLD, κ·feeRate)`; the amount `minAmount(feeRate)` is accepted, the
amount `minAmount(feeRate) − 1` is rejected, and `CheckAmount(500, 1000)` is false.  The
constants are only assumed positive: a positive dust threshold makes `minAmount − 1` an
amount, a positive size estimate puts `minAmount(1000)` at 1000 or more. -/
theorem CheckAmount_iff_ge_minAmount (p : AmountPolicy) (amount feeRate : Nat)
    (hd : 0 < p.DUST_THRESHOLD) (hk : 0 < p.kappa)
    (_ha : amount < UINT64_RANGE) (_hr : feeRate < UINT64_RANGE) :
    (BitcoinSide.CheckAmount p amount feeRate = true
        ↔ amount ≥ max p.DUST_THRESHOLD (p.kappa * feeRate))
      ∧ BitcoinSide.CheckAmount p (minAmount p feeRate) feeRate = true
      ∧ BitcoinSide.CheckAmount p (minAmount p feeRate - 1) feeRate = false
      ∧ BitcoinSide.CheckAmount p 500 1000 = false := by
  have hpos : 0 < minAmount p feeRate := minAmount_pos_of_dust p feeRate hd
  refine ⟨?_, ?_, ?_, ?_⟩
  · simp [BitcoinSide.CheckAmount, minAmount]
  · simp [BitcoinSide.CheckAmount]
  · simp only [BitcoinSide.CheckAmount, decide_eq_false_iff_not, not_le]
    omega
  · simp only [BitcoinSide.CheckAmount, decide_eq_false_iff_not, not_le]
    have h1 : 1000 ≤ p.kappa * 1000 := Nat.le_mul_of_pos_left 1000 hk
    have h2 : p.kappa * 1000 ≤ minAmount p 1000 := le_max_right _ _
    omega

/-- Witness of C1 at dust threshold 546, size estimate 1, amount 1000 and fee rate 1. -/
theorem CheckAmount_iff_ge_minAmount_witness :
    (BitcoinSide.CheckAmount ⟨546, 1⟩ 1000 1 = true ↔ 1000 ≥ max 546 (1 * 1))
      ∧ BitcoinSide.CheckAmount ⟨546, 1⟩ (minAmount ⟨546, 1⟩ 1) 1 = true
      ∧ BitcoinSide.CheckAmount ⟨546, 1⟩ (minAmount ⟨546, 1⟩ 1 - 1) 1 = false
      ∧ BitcoinSide.CheckAmount ⟨546, 1⟩ 500 1000 = false :=
  CheckAmount_iff_ge_minAmount ⟨546, 1⟩ 1000 1 (by decide) (by decide)
    (by norm_num [UINT64_RANGE]) (by norm_num [UINT64_RANGE])

theorem InitLockTime_externalLockTime (cfg : LockTimeSettings) (s : BitcoinSide) :
    (s.InitLockTime cfg).2.m_tx.externalLockTime
      = s.m_blockCount + cfg.LockTimeInBlocks + BitcoinSide.bitcoinTimeBudget cfg s := by
  simp [BitcoinSide.InitLockTime, BitcoinSide.GetBlockCount]

/-- C3: `InitLockTime` stores `externalLockTime = H_btc_now + LockTimeInBlocks + Δ_btc`, with
`Δ_btc` the translation to Bitcoin blocks of `peerResponseTime +
LockTxEstimatedTimeInNativeBlocks`; it reports success and changes nothing else; at tip 100
with `LockTimeInBlocks = 12` the stored value is `112 + Δ_btc`. -/
theorem InitLockTime_stores_externalLockTime (cfg : LockTimeSettings) (s : BitcoinSide) :
    (s.InitLockTime cfg).2.m_tx.externalLockTime
        = s.m_blockCount + cfg.LockTimeInBlocks
            + cfg.beamToBitcoinBlocks
                (s.m_tx.peerResponseTime + cfg.LockTxEstimatedTimeInBeamBlocks)
      ∧ (s.InitLockTime cfg).1 = true
      ∧ (s.InitLockTime cfg).2
          = { s with m_tx := { s.m_tx with
                externalLockTime := (s.InitLockTime cfg).2.m_tx.externalLockTime } }
      ∧ (s.m_blockCount = 100 → cfg.LockTimeInBlocks = 12 →
          (s.InitLockTime cfg).2.m_tx.externalLockTime
            = 112 + cfg.beamToBitcoinBlocks
                (s.m_tx.peerResponseTime + cfg.LockTxEstimatedTimeInBeamBlocks)) := by
  refine ⟨?_, ?_, ?_, ?_⟩
  · exact InitLockTime_externalLockTime cfg s
  · rfl
  · rfl
  · intro h1 h2
    rw [InitLockTime_externalLockTime, h1, h2]
    rfl

/-- Scenario S1 evaluated for C3: tip 100, `LockTimeInBlocks = 12`, peer response time 5,
estimate 70 and ten native blocks to a Bitcoin block give `112 + 7`. -/
theorem InitLockTime_stores_externalLockTime_witness :
    ((BitcoinSide.InitLockTime ⟨12, 70, fun n => n / 10, 6⟩
        ⟨⟨200000, [], [], [], 5, 20, 50, 0⟩, true, 100, 0, none, none⟩).2).m_tx.externalLockTime
      = 119 :=
  (InitLockTime_stores_externalLockTime ⟨12, 70, fun n => n / 10, 6⟩
    ⟨⟨200000, [], [], [], 5, 20, 50, 0⟩, true, 100, 0, none, none⟩).1

/-- C5: `IsLockTimeExpired` is true exactly when the cached Bitcoin block height
(`m_blockCount`, which `GetBlockCount` returns) is at least the stored `externalLockTime`. -/
theorem IsLockTimeExpired_iff_height_ge (s : BitcoinSide) :
    (s.IsLockTimeExpired = true ↔ s.m_blockCount ≥ s.m_tx.externalLockTime)
      ∧ s.GetBlockCount = s.m_blockCount := by
  simp [BitcoinSide.IsLockTimeExpired, BitcoinSide.GetBlockCount]

/-! ### Script builder -/

/-- C6: the script of `CreateAtomicSwapContract` is the sequence OP_IF, OP_SHA256, push
secretHash, OP_EQUALVERIFY, OP_DUP, OP_HASH160, push hash160(pubKeyB), OP_ELSE, push locktime,
OP_CHECKLOCKTIMEVERIFY, OP_DROP, OP_DUP, OP_HASH160, push hash160(pubKeyA), OP_ENDIF,
OP_EQUALVERIFY, OP_CHECKSIG of the four inputs `pubKeyA`, `pubKeyB`, `secretHash`, `locktime`
held by the session; any other controller state with the same four inputs yields the same
script and, under every encoding of the operations, the same bytes. -/
theorem CreateAtomicSwapContract_eq_script (hash160 : List Nat → List Nat)
    (pubKeyA pubKeyB secretHash : List Nat) (locktime : Nat) (s s' : BitcoinSide)
    (hA : s.m_tx.publicKeyA = pubKeyA) (hB : s.m_tx.publicKeyB = pubKeyB)
    (hH : s.m_tx.secretHash = secretHash) (hL : s.m_tx.externalLockTime = locktime)
    (hA' : s'.m_tx.publicKeyA = pubKeyA) (hB' : s'.m_tx.publicKeyB = pubKeyB)
    (hH' : s'.m_tx.secretHash = secretHash) (hL' : s'.m_tx.externalLockTime = locktime) :
    s.CreateAtomicSwapContract hash160
        = [ScriptOp.OP_IF, ScriptOp.OP_SHA256, ScriptOp.pushData secretHash,
            ScriptOp.OP_EQUALVERIFY, ScriptOp.OP_DUP, ScriptOp.OP_HASH160,
            ScriptOp.pushData (hash160 pubKeyB), ScriptOp.OP_ELSE,
            ScriptOp.pushNumber locktime, ScriptOp.OP_CHECKLOCKTIMEVERIFY, ScriptOp.OP_DROP,
            ScriptOp.OP_DUP, ScriptOp.OP_HASH160, ScriptOp.pushData (hash160 pubKeyA),
            ScriptOp.OP_ENDIF, ScriptOp.OP_EQUALVERIFY, ScriptOp.OP_CHECKSIG]
      ∧ s'.CreateAtomicSwapContract hash160 = s.CreateAtomicSwapContract hash160
      ∧ ∀ encode : ScriptOp → List Nat,
          scriptBytes encode (s'.CreateAtomicSwapContract hash160)
            = scriptBytes encode (s.CreateAtomicSwapContract hash160) := by
  have h1 : s'.CreateAtomicSwapContract hash160 = s.CreateAtomicSwapContract hash160 := by
    simp [BitcoinSide.CreateAtomicSwapContract, hA, hB, hH, hL, hA', hB', hH', hL']
  refine ⟨?_, h1, ?_⟩
  · simp [BitcoinSide.CreateAtomicSwapContract, hA, hB, hH, hL]
  · intro encode
    rw [h1]

/-- Witness of C6: an owner-side and a peer-side state that differ in role, cached height and
amount but hold the keys `[2]`, `[3]`, the hash `[7]` and the lock time 119. -/
theorem CreateAtomicSwapContract_eq_script_witness :
    BitcoinSide.CreateAtomicSwapContract (fun key => key.reverse)
        ⟨⟨200000, [7], [2, 1], [3, 1], 5, 20, 50, 119⟩, true, 100, 0, none, none⟩
      = [ScriptOp.OP_IF, ScriptOp.OP_SHA256, ScriptOp.pushData [7],
          ScriptOp.OP_EQUALVERIFY, ScriptOp.OP_DUP, ScriptOp.OP_HASH160,
          ScriptOp.pushData [1, 3], ScriptOp.OP_ELSE,
          ScriptOp.pushNumber 119, ScriptOp.OP_CHECKLOCKTIMEVERIFY, ScriptOp.OP_DROP,
          ScriptOp.OP_DUP, ScriptOp.OP_HASH160, ScriptOp.pushData [1, 2],
          ScriptOp.OP_ENDIF, ScriptOp.OP_EQUALVERIFY, ScriptOp.OP_CHECKSIG] :=
  (CreateAtomicSwapContract_eq_script (fun key => key.reverse) [2, 1] [3, 1] [7] 119
    ⟨⟨200000, [7], [2, 1], [3, 1], 5, 20, 50, 119⟩, true, 100, 0, none, none⟩
    ⟨⟨1000, [7], [2, 1], [3, 1], 9, 30, 60, 119⟩, false, 104, 2, none, none⟩
    rfl rfl rfl rfl rfl rfl rfl rfl).1

/-! ### Declared types of the monetary values -/

/-- C8, counterexample: not every monetary value of the interfaces is declared with a 64-bit
unsigned type; the `amount` of `OnGetSwapLockTxConfirmations` is a `double`. -/
theorem monetary_slots_not_all_uint64 :
    MonetarySlot.OnGetSwapLockTxConfirmations_amount.declaredType = CppType.double
      ∧ ¬ (∀ slot : MonetarySlot, slot.declaredType.isUInt64 = true) := by
  refine ⟨rfl, ?_⟩
  intro h
  exact absurd (h MonetarySlot.OnGetSwapLockTxConfirmations_amount) (by decide)

/-- C8, amended: the amount and fee rate of `CheckAmount` and the results of both `GetFeeRate`
getters are of type `Amount`, a 64-bit unsigned integer; the amount delivered to
`OnGetSwapLockTxConfirmations` and the three balances delivered to the callback of
`Client::GetBalance` are of type `double`. -/
theorem monetary_slot_types (slot : MonetarySlot) :
    (slot.declaredType.isUInt64 = true
        ↔ slot = MonetarySlot.CheckAmount_amount ∨ slot = MonetarySlot.CheckAmount_feeRate
          ∨ slot = MonetarySlot.GetFeeRate_result ∨ slot = MonetarySlot.GetFeeRate_subTx_result)
      ∧ (slot.declaredType = CppType.double
        ↔ slot = MonetarySlot.OnGetSwapLockTxConfirmations_amount
          ∨ slot = MonetarySlot.getDetailedBalance_confirmed
          ∨ slot = MonetarySlot.getDetailedBalance_unconfirmed
          ∨ slot = MonetarySlot.getDetailedBalance_immature) := by
  cases slot <;> simp [MonetarySlot.declaredType, CppType.isUInt64]

end wallet
end beam

namespace beam
namespace bitcoin

/-! ### Traces of the client operations -/

variable {P S C D : Type}

@[simp]
theorem Client.emit_trace (c : Client P D) (e : Event D) :
    (c.emit e).trace = c.trace ++ [e] := rfl

@[simp]
theorem Client.emit_m_status (c : Client P D) (e : Event D) :
    (c.emit e).m_status = c.m_status := rfl

theorem Client.GetBitcoinCoreSettings_trace (sp : SettingsProvider P S C) (c : Client P D) :
    (c.GetBitcoinCoreSettings sp).2.trace
      = c.trace ++ [Event.lock, Event.provider ProviderCall.GetBitcoinCoreSettings,
          Event.unlock] := by
  simp [Client.GetBitcoinCoreSettings]

theorem Client.GetSettings_trace (sp : SettingsProvider P S C) (c : Client P D) :
    (c.GetSettings sp).2.trace
      = c.trace ++ [Event.lock, Event.provider ProviderCall.GetSettings, Event.unlock] := by
  simp [Client.GetSettings]

theorem Client.SetSettings_trace (sp : SettingsProvider P S C) (c : Client P D) (settings : S) :
    (c.SetSettings sp settings).trace
      = c.trace ++ [Event.lock, Event.provider ProviderCall.SetSettings, Event.unlock] := by
  simp [Client.SetSettings, Client.emit]

theorem Client.ResetSettings_trace (sp : SettingsProvider P S C) (c : Client P D) :
    (c.ResetSettings sp).trace
      = c.trace ++ [Event.lock, Event.provider ProviderCall.ResetSettings, Event.unlock,
          Event.OnStatus Status.Uninitialized] := by
  simp [Client.ResetSettings, Client.SetStatus, Client.OnStatus, Client.emit]

theorem Client.GetStatus_trace (c : Client P D) :
    c.GetStatus.trace = c.trace ++ [Event.OnStatus c.m_status] := by
  simp [Client.GetStatus, Client.OnStatus]

theorem Client.GetBalance_trace (c : Client P D) :
    c.GetBalance.trace = c.trace ++ [Event.getDetailedBalance] := by
  unfold Client.GetBalance
  split <;> simp

theorem Client.onDetailedBalance_m_status (c : Client P D) (error : Error)
    (confirmed unconfirmed immature : D) :
    (c.onDetailedBalance error confirmed unconfirmed immature).m_status
      = if error.m_type = ErrorType.None then Status.Connected else Status.Failed := by
  by_cases h : error.m_type = ErrorType.None <;>
    simp [Client.onDetailedBalance, Client.SetStatus, Client.OnStatus, Client.OnBalance,
      Client.emit, h]

theorem Client.onDetailedBalance_trace (c : Client P D) (error : Error)
    (confirmed unconfirmed immature : D) :
    (c.onDetailedBalance error confirmed unconfirmed immature).trace
      = c.trace ++
          [Event.OnStatus (c.onDetailedBalance error confirmed unconfirmed immature).m_status,
            Event.OnBalance ⟨confirmed, unconfirmed, immature⟩] := by
  by_cases h : error.m_type = ErrorType.None <;>
    simp [Client.onDetailedBalance, Client.SetStatus, Client.OnStatus, Client.OnBalance,
      Client.emit, h]

/-- Events that one call adds to the trace. -/
theorem Client.step_trace (sp : SettingsProvider P S C) (c : Client P D) (call : Call S D) :
    ∃ events : List (Event D),
      (c.step sp call).trace = c.trace ++ events ∧ lockDiscipline false events = true := by
  cases call with
  | GetBitcoinCoreSettings =>
    exact ⟨_, Client.GetBitcoinCoreSettings_trace sp c, rfl⟩
  | GetSettings => exact ⟨_, Client.GetSettings_trace sp c, rfl⟩
  | SetSettings settings => exact ⟨_, Client.SetSettings_trace sp c settings, rfl⟩
  | GetStatus => exact ⟨_, Client.GetStatus_trace c, rfl⟩
  | GetBalance => exact ⟨_, Client.GetBalance_trace c, rfl⟩
  | detailedBalanceReply error confirmed unconfirmed immature =>
    exact ⟨_, Client.onDetailedBalance_trace c error confirmed unconfirmed immature, rfl⟩
  | ResetSettings => exact ⟨_, Client.ResetSettings_trace sp c, rfl⟩

theorem lockDiscipline_append (held : Bool) (first second : List (Event D))
    (h1 : lockDiscipline held first = true) (h2 : lockDiscipline false second = true) :
    lockDiscipline held (first ++ second) = true := by
  induction first generalizing held with
  | nil =>
    have hfree : held = false := by simpa [lockDiscipline] using h1
    simpa [hfree] using h2
  | cons e rest ih =>
    cases e <;> simp only [List.cons_append, lockDiscipline, Bool.and_eq_true] at h1 ⊢
    · exact ⟨h1.1, ih _ h1.2⟩
    · exact ⟨h1.1, ih _ h1.2⟩
    · exact ⟨h1.1, ih _ h1.2⟩
    · exact ih _ h1
    · exact ⟨h1.1, ih _ h1.2⟩
    · exact ih _ h1

theorem Client.run_lockDiscipline (sp : SettingsProvider P S C) (c : Client P D)
    (calls : List (Call S D)) (h : lockDiscipline false c.trace = true) :
    lockDiscipline false (c.run sp calls).trace = true := by
  induction calls generalizing c with
  | nil => exact h
  | cons call rest ih =>
    obtain ⟨events, htrace, hevents⟩ := Client.step_trace sp c call
    apply ih
    rw [htrace]
    exact lockDiscipline_append false _ _ h hevents

/-! ### Status notifications -/

theorem lastOnStatus_append (first second : List (Event D)) :
    lastOnStatus (first ++ second)
      = (lastOnStatus second).or (lastOnStatus first) := by
  simp [lastOnStatus, List.reverse_append, List.findSome?_append]

theorem Client.step_statusNotified (sp : SettingsProvider P S C) (c : Client P D)
    (call : Call S D) (h : c.statusNotified) : (c.step sp call).statusNotified := by
  unfold Client.statusNotified at h ⊢
  cases call with
  | GetBitcoinCoreSettings =>
    simp only [Client.step, Client.GetBitcoinCoreSettings_trace, lastOnStatus_append]
    simpa [lastOnStatus, List.findSome?, Event.status?, Client.GetBitcoinCoreSettings] using h
  | GetSettings =>
    simp only [Client.step, Client.GetSettings_trace, lastOnStatus_append]
    simpa [lastOnStatus, List.findSome?, Event.status?, Client.GetSettings] using h
  | SetSettings settings =>
    simp only [Client.step, Client.SetSettings_trace, lastOnStatus_append]
    simpa [lastOnStatus, List.findSome?, Event.status?, Client.SetSettings, Client.emit] using h
  | GetStatus =>
    simp only [Client.step, Client.GetStatus_trace, lastOnStatus_append]
    simp [lastOnStatus, List.findSome?, Event.status?, Client.GetStatus, Client.OnStatus]
  | GetBalance =>
    simp only [Client.step, Client.GetBalance_trace, lastOnStatus_append]
    unfold Client.GetBalance
    split <;> simpa [lastOnStatus, List.findSome?, Event.status?] using h
  | detailedBalanceReply error confirmed unconfirmed immature =>
    simp only [Client.step, Client.onDetailedBalance_trace, lastOnStatus_append]
    simp [lastOnStatus, List.findSome?, Event.status?]
  | ResetSettings =>
    simp only [Client.step, Client.ResetSettings_trace, lastOnStatus_append]
    simp [lastOnStatus, List.findSome?, Event.status?, Client.ResetSettings, Client.SetStatus,
      Client.OnStatus, Client.emit]

theorem Client.run_statusNotified (sp : SettingsProvider P S C) (c : Client P D)
    (calls : List (Call S D)) (h : c.statusNotified) : (c.run sp calls).statusNotified := by
  induction calls generalizing c with
  | nil => exact h
  | cons call rest ih => exact ih _ (Client.step_statusNotified sp c call h)

/-! ### The claims on the client -/

/-- The lock discipline is violated by a call on the settings provider that no `lock`
precedes, by one that follows the `unlock`, and by an `OnStatus` between `lock` and
`unlock`. -/
theorem lockDiscipline_rejects (call : ProviderCall) (status : Status) :
    lockDiscipline false ([Event.provider call] : List (Event D)) = false
      ∧ lockDiscipline false
          ([Event.lock, Event.unlock, Event.provider call] : List (Event D)) = false
      ∧ lockDiscipline false
          ([Event.lock, Event.provider call, Event.OnStatus status, Event.unlock] :
            List (Event D)) = false
      ∧ lockDiscipline false ([Event.lock, Event.provider call] : List (Event D)) = false := by
  simp [lockDiscipline]

/-- C7: in program order, each of `GetBitcoinCoreSettings`, `GetSettings`, `SetSettings` and
`ResetSettings` takes `m_mutex`, calls the settings provider once, and releases the mutex
before it returns; `ResetSettings` releases it before `SetStatus` notifies.  No other call of
the client touches the provider, so from construction on every trace of calls keeps the lock
discipline: each provider call lies between a `lock` and the next `unlock`, and the mutex is
free between calls. -/
theorem settings_provider_accessed_under_mutex (sp : SettingsProvider P S C) (c : Client P D)
    (settings : S) (provider : P) (calls : List (Call S D)) :
    ((c.GetBitcoinCoreSettings sp).1 = sp.GetBitcoinCoreSettings c.m_settingsProvider
        ∧ (c.GetBitcoinCoreSettings sp).2.trace
            = c.trace ++ [Event.lock, Event.provider ProviderCall.GetBitcoinCoreSettings,
                Event.unlock])
      ∧ ((c.GetSettings sp).1 = sp.GetSettings c.m_settingsProvider
        ∧ (c.GetSettings sp).2.trace
            = c.trace ++ [Event.lock, Event.provider ProviderCall.GetSettings, Event.unlock])
      ∧ ((c.SetSettings sp settings).m_settingsProvider
            = sp.SetSettings c.m_settingsProvider settings
        ∧ (c.SetSettings sp settings).trace
            = c.trace ++ [Event.lock, Event.provider ProviderCall.SetSettings, Event.unlock])
      ∧ ((c.ResetSettings sp).m_settingsProvider = sp.ResetSettings c.m_settingsProvider
        ∧ (c.ResetSettings sp).trace
            = c.trace ++ [Event.lock, Event.provider ProviderCall.ResetSettings, Event.unlock,
                Event.OnStatus Status.Uninitialized])
      ∧ (∀ call : Call S D, ∃ events : List (Event D),
          (c.step sp call).trace = c.trace ++ events ∧ lockDiscipline false events = true)
      ∧ lockDiscipline false (((Client.ctor provider : Client P D).run sp calls).trace)
          = true := by
  refine ⟨⟨rfl, Client.GetBitcoinCoreSettings_trace sp c⟩, ⟨rfl, Client.GetSettings_trace sp c⟩,
    ⟨rfl, Client.SetSettings_trace sp c settings⟩, ⟨rfl, Client.ResetSettings_trace sp c⟩,
    Client.step_trace sp c, ?_⟩
  exact Client.run_lockDiscipline sp _ calls rfl

/-- C9: after a reply `(error, confirmed, unconfirmed, immature)` to `GetBalance` the status is
`Failed` exactly when `error.m_type` is not `None` and `Connected` exactly when it is `None`,
whatever the status was; the reply notifies the new status and then calls `OnBalance` once,
with `m_available = confirmed`, `m_unconfirmed = unconfirmed`, `m_immature = immature`, also
when the reply carries an error. -/
theorem onDetailedBalance_sets_status_and_reports_balance (c : Client P D) (error : Error)
    (confirmed unconfirmed immature : D) :
    ((c.onDetailedBalance error confirmed unconfirmed immature).m_status = Status.Failed
        ↔ error.m_type ≠ ErrorType.None)
      ∧ ((c.onDetailedBalance error confirmed unconfirmed immature).m_status = Status.Connected
        ↔ error.m_type = ErrorType.None)
      ∧ (c.onDetailedBalance error confirmed unconfirmed immature).trace
          = c.trace ++
              [Event.OnStatus (c.onDetailedBalance error confirmed unconfirmed immature).m_status,
                Event.OnBalance
                  { m_available := confirmed, m_unconfirmed := unconfirmed,
                    m_immature := immature }]
      ∧ balancesOf
            [Event.OnStatus (c.onDetailedBalance error confirmed unconfirmed immature).m_status,
              Event.OnBalance
                { m_available := confirmed, m_unconfirmed := unconfirmed,
                  m_immature := immature }]
          = [{ m_available := confirmed, m_unconfirmed := unconfirmed,
               m_immature := immature }] := by
  refine ⟨?_, ?_, Client.onDetailedBalance_trace c error confirmed unconfirmed immature, rfl⟩
  · rw [Client.onDetailedBalance_m_status]
    by_cases h : error.m_type = ErrorType.None <;> simp [h]
  · rw [Client.onDetailedBalance_m_status]
    by_cases h : error.m_type = ErrorType.None <;> simp [h]

/-- C10: a client starts with status `Uninitialized`; `GetStatus` notifies the stored status
and leaves it unchanged; `ResetSettings` leaves the status `Uninitialized`; after `GetStatus`,
after `ResetSettings` and after a reply to `GetBalance` the argument of the last `OnStatus`
equals the stored `m_status`; and along every sequence of calls from construction the stored
status is the last notified one (`Uninitialized` before the first notification). -/
theorem status_matches_last_notification (sp : SettingsProvider P S C) (provider : P)
    (c : Client P D) (error : Error) (confirmed unconfirmed immature : D)
    (calls : List (Call S D)) :
    (Client.ctor provider : Client P D).m_status = Status.Uninitialized
      ∧ (c.GetStatus.m_status = c.m_status
        ∧ c.GetStatus.trace = c.trace ++ [Event.OnStatus c.m_status])
      ∧ (c.ResetSettings sp).m_status = Status.Uninitialized
      ∧ lastOnStatus c.GetStatus.trace = some c.GetStatus.m_status
      ∧ lastOnStatus (c.ResetSettings sp).trace = some (c.ResetSettings sp).m_status
      ∧ lastOnStatus (c.onDetailedBalance error confirmed unconfirmed immature).trace
          = some (c.onDetailedBalance error confirmed unconfirmed immature).m_status
      ∧ ((Client.ctor provider : Client P D).run sp calls).statusNotified := by
  refine ⟨rfl, ⟨rfl, Client.GetStatus_trace c⟩, rfl, ?_, ?_, ?_, ?_⟩
  · rw [Client.GetStatus_trace, lastOnStatus_append]
    rfl
  · rw [Client.ResetSettings_trace, lastOnStatus_append]
    rfl
  · rw [Client.onDetailedBalance_trace, lastOnStatus_append]
    rfl
  · exact Client.run_statusNotified sp _ calls rfl

end bitcoin
end beam

namespace beam
namespace wallet

/-! ### Address generation -/

theorem savedAddresses_append {W R : Type} (first second : List (AddressEvent W R)) :
    savedAddresses (first ++ second) = savedAddresses first ++ savedAddresses second := by
  induction first with
  | nil => rfl
  | cons e rest ih => cases e <;> simp [savedAddresses, ih]

theorem GenerateNewAddress_events {DB K E W R : Type} (ops : AddressOperations DB K E W R)
    (walletDB : DB) (label : String) (keyKeeper : K) (expirationStatus : E)
    (saveRequired : Bool) :
    (GenerateNewAddress ops walletDB label keyKeeper expirationStatus saveRequired).events
      = (if saveRequired then
            [AddressEvent.saveAddress
              (GenerateNewAddress ops walletDB label keyKeeper expirationStatus
                saveRequired).address]
          else [])
        ++ [AddressEvent.logNewGenerated
              (GenerateNewAddress ops walletDB label keyKeeper expirationStatus
                saveRequired).address.m_walletID]
        ++ (if label.isEmpty then [] else [AddressEvent.logNewGeneratedLabel label]) := by
  cases saveRequired <;> by_cases h : label.isEmpty <;> simp [GenerateNewAddress, h]

/-- C11: `GenerateNewAddress` returns the address made by `storage::createAddress`, after
`setExpiration(expirationStatus)`, with `m_label` set to the given label and nothing else
changed; it calls `walletDB->saveAddress` exactly when `saveRequired` is true, then once and
with the returned address; with `saveRequired` false it makes no `saveAddress` call and
leaves the database as `createAddress` left it. -/
theorem GenerateNewAddress_returns_address_and_saves_iff_required {DB K E W R : Type}
    (ops : AddressOperations DB K E W R) (walletDB : DB) (label : String) (keyKeeper : K)
    (expirationStatus : E) (saveRequired : Bool) :
    (GenerateNewAddress ops walletDB label keyKeeper expirationStatus saveRequired).address
        = { ops.setExpiration (ops.createAddress walletDB keyKeeper).1 expirationStatus with
            m_label := label }
      ∧ (GenerateNewAddress ops walletDB label keyKeeper expirationStatus
            saveRequired).address.m_label = label
      ∧ (GenerateNewAddress ops walletDB label keyKeeper expirationStatus
            saveRequired).address.m_walletID
          = (ops.setExpiration (ops.createAddress walletDB keyKeeper).1
              expirationStatus).m_walletID
      ∧ (GenerateNewAddress ops walletDB label keyKeeper expirationStatus
            saveRequired).address.others
          = (ops.setExpiration (ops.createAddress walletDB keyKeeper).1
              expirationStatus).others
      ∧ savedAddresses
            (GenerateNewAddress ops walletDB label keyKeeper expirationStatus
              saveRequired).events
          = (if saveRequired then
              [(GenerateNewAddress ops walletDB label keyKeeper expirationStatus
                  saveRequired).address]
            else [])
      ∧ (saveRequired = true
          ↔ ∃ address, AddressEvent.saveAddress address
              ∈ (GenerateNewAddress ops walletDB label keyKeeper expirationStatus
                  saveRequired).events)
      ∧ (GenerateNewAddress ops walletDB label keyKeeper expirationStatus
            saveRequired).walletDB
          = (if saveRequired then
              ops.saveAddress (ops.createAddress walletDB keyKeeper).2
                (GenerateNewAddress ops walletDB label keyKeeper expirationStatus
                  saveRequired).address
            else (ops.createAddress walletDB keyKeeper).2) := by
  refine ⟨rfl, rfl, rfl, rfl, ?_, ?_, ?_⟩
  · rw [GenerateNewAddress_events]
    cases saveRequired <;> by_cases h : label.isEmpty <;>
      simp [savedAddresses_append, savedAddresses, h]
  · rw [GenerateNewAddress_events]
    cases saveRequired <;> by_cases h : label.isEmpty <;> simp [h]
  · cases saveRequired <;> simp [GenerateNewAddress]

/-- C11 evaluated on a database that is the list of saved addresses, with `createAddress`
making the address of the key keeper's number and `setExpiration` storing the status: with
`saveRequired` the address labelled "alice" is the one saved address. -/
theorem GenerateNewAddress_returns_address_and_saves_iff_required_witness :
    savedAddresses
        (GenerateNewAddress
          (⟨fun db k => (⟨k, "", 0⟩, db), fun a e => { a with others := e },
            fun db a => a :: db⟩ :
            AddressOperations (List (WalletAddress Nat Nat)) Nat Nat Nat Nat)
          [] "alice" 7 2 true).events
      = [(⟨7, "alice", 2⟩ : WalletAddress Nat Nat)] :=
  (GenerateNewAddress_returns_address_and_saves_iff_required
    (⟨fun db k => (⟨k, "", 0⟩, db), fun a e => { a with others := e },
      fun db a => a :: db⟩ :
      AddressOperations (List (WalletAddress Nat Nat)) Nat Nat Nat Nat)
    [] "alice" 7 2 true).2.2.2.2.1

end wallet
end beam
